import Mathlib

/-!
Verification of the WWW-Authenticate challenge parser / serializer / Bearer
validator of the `http` package of github.com/jbrekelmans/go-lib.

Go strings are byte sequences; they are modelled as `List Nat` with every
element a byte value (the code only ever inspects individual bytes, so no
UTF-8 decoding is needed except where noted).  Go `int` values that can be
negative (the parser's current-byte field, which uses -1 as the end-of-input
sentinel) are modelled as `Int`.

Sources embedded here:
- src/http/range.go   (octet classification, `IsToken68`, the recursive
                       descent parser `parser` with methods `authParam`,
                       `challenge`, `wwwAuthenticate`, `next`, `ows`,
                       `expectOctet`, `expectTokenOctet`, `expectEOF`,
                       `ParseWwwAuthenticateHeaderValue`,
                       `ValidateFormattableAsQuotedPair`, `WriteQuotedPair`)
- src/http/error.go   (`NewWWWAuthenticateError`, `HeaderValue`, `Challenge`)
- src/unnamed/part_001 and src/unnamed/part_002 (two editions of
                       `ValidateBearerChallenge`)
- src/http/grammar.go (`WriteQuotedPairWouldWriteBackslashes`)
-/

/-! ## Octet classification (src/http/range.go `init`, `isToken68Head`) -/

/--
Token octets as classified by `octetFlagArray[i] & octetFlagToken`, which is
set for `i < 0x80 && httpguts.IsTokenRune(rune(i))`.  The httpguts token
table holds exactly the digits, the upper- and lower-case letters, and
`! # $ % & ' * + - . ^ _ \x60 | ~`.
-/
def isTokenByte (b : Nat) : Bool :=
  (48 ≤ b && b ≤ 57) || (65 ≤ b && b ≤ 90) || (97 ≤ b && b ≤ 122) ||
  b = 33 || b = 35 || b = 36 || b = 37 || b = 38 || b = 39 || b = 42 ||
  b = 43 || b = 45 || b = 46 || b = 94 || b = 95 || b = 96 || b = 124 || b = 126

/--
`isToken68Head` from src/http/range.go: `- . _ ~ + /`, letters and digits.
-/
def isToken68HeadByte (b : Nat) : Bool :=
  b = 45 || b = 46 || b = 95 || b = 126 || b = 43 || b = 47 ||
  (97 ≤ b && b ≤ 122) || (65 ≤ b && b ≤ 90) || (48 ≤ b && b ≤ 57)

/--
`IsToken` (src/http/grammar.go and range.go) delegates to
`httpguts.ValidHeaderFieldName`: false for the empty string, otherwise every
rune must be a token rune.  Token runes are all ASCII (< 0x80), where Go's
rune iteration coincides with byte iteration; any byte ≥ 0x80 yields a rune
≥ 0x80 or U+FFFD, neither of which is in the 127-entry token table.  Hence
on byte lists: nonempty and every byte a token byte.
-/
def IsToken (val : List Nat) : Bool :=
  !val.isEmpty && val.all isTokenByte

/--
`IsToken68` from src/http/range.go: first byte must be a token68 head byte;
then a maximal run of token68 head bytes; the remainder (if any) must
consist only of `=` (0x3D) padding bytes.  The Go second loop is entered
only when a non-head byte remains and immediately rejects a non-`=`, which
is exactly "remainder nonempty implies all `=`".
-/
def IsToken68 (val : List Nat) : Bool :=
  match val with
  | [] => false
  | h :: t =>
    if !isToken68HeadByte h then false
    else (t.dropWhile isToken68HeadByte).all (fun b => b = 61)

/-! ## Quoted-pair codec (src/http/range.go `WriteQuotedPair`,
`ValidateFormattableAsQuotedPair`; identical code in src/http/grammar.go) -/

/--
Loop body of `WriteQuotedPair`: returns the bytes written for `val` together
with `some b` if byte `b` is an ASCII control character other than tab
(`(b != '\t' && b < 0x20) || b == 0x7F`), at which point the Go function
returns the error immediately, leaving the bytes written so far in the
builder.
-/
def quotedPairBody : List Nat → (List Nat × Option Nat)
  | [] => ([], none)
  | b :: rest =>
    if (b ≠ 9 && decide (b < 32)) || b = 127 then ([], some b)
    else if b = 34 || b = 92 then
      let r := quotedPairBody rest
      (92 :: b :: r.1, r.2)
    else
      let r := quotedPairBody rest
      (b :: r.1, r.2)

/--
`WriteQuotedPair(sb, val)`: writes the opening `"`, then the escaped body,
then — only when no control character was hit — the closing `"`.  The first
component is everything appended to the builder, the second the error.
-/
def WriteQuotedPair (val : List Nat) : (List Nat × Option Nat) :=
  let r := quotedPairBody val
  match r.2 with
  | some b => (34 :: r.1, some b)
  | none => (34 :: (r.1 ++ [34]), none)

/--
`ValidateFormattableAsQuotedPair` runs `WriteQuotedPair` into a scratch
builder and returns only the error.
-/
def ValidateFormattableAsQuotedPair (val : List Nat) : Option Nat :=
  (WriteQuotedPair val).2

/--
`WriteQuotedPairWouldWriteBackslashes` (src/http/grammar.go):
`strings.ContainsAny(val, "\x22\x5C")`.
-/
def WriteQuotedPairWouldWriteBackslashes (val : List Nat) : Bool :=
  val.any (fun b => b = 34 || b = 92)

/-! ## Data model (src/http/error.go) -/

/-- `Param` from src/http/range.go / grammar.go.  The Go field `Attribute`
is named `attr` because `attribute` is a Lean keyword. -/
structure Param where
  attr : List Nat
  value : List Nat
deriving DecidableEq, Repr

/--
`Challenge` from src/http/error.go.  Go's `[]*Param` may contain nil
pointers, but `NewWWWAuthenticateError` rejects nil entries and the parser
never produces them, so params are modelled as a plain list.
-/
structure Challenge where
  scheme : List Nat
  params : List Param
  token68 : List Nat
deriving DecidableEq, Repr

/-- `WWWAuthenticateError` from src/http/error.go. -/
structure WWWAuthenticateError where
  challenges : List Challenge
  error : List Nat
deriving DecidableEq, Repr

/-- ASCII lower-casing of one byte (A-Z mapped to a-z, all else fixed). -/
def asciiLowerByte (b : Nat) : Nat :=
  if 65 ≤ b && b ≤ 90 then b + 32 else b

/-- The bytes of `"realm"`. -/
def realmBytes : List Nat := [114, 101, 97, 108, 109]

/-- The bytes of `"Bearer"` (`AuthenticationSchemeBearer`). -/
def bearerBytes : List Nat := [66, 101, 97, 114, 101, 114]

/--
`strings.EqualFold(attr, "realm")` (used by `HeaderValue`) and
`strings.ToLower(attr) == "realm"` (used by `ValidateBearerChallenge`) agree
on byte lists: `"realm"` is pure ASCII, no non-ASCII rune case-folds or
lower-cases to `r e a l m`, and invalid UTF-8 bytes become U+FFFD which is
not an ASCII letter.  Hence both reduce to ASCII-lower-casing each byte and
comparing with `"realm"`.
-/
def attrFoldsToRealm (p : Param) : Bool :=
  p.attr.map asciiLowerByte = realmBytes

/-! ## Construction (src/http/error.go `NewWWWAuthenticateError`) -/

/--
The per-challenge checks of `NewWWWAuthenticateError` (error messages are
collapsed into a boolean; which check fires first does not matter for any
claim).  NOTE on the param-value check: the Go source (src/http/error.go
line 43) reads

  `if ValidateFormattableAsQuotedPair(param.Value); err != nil {`

which calls the validator as a discarded simple statement and then tests the
enclosing function's named return value `err` — still nil at that point — so
the check never fails and no condition is imposed on `p.value` here.  The
nil-pointer checks on challenge and param entries are not representable (see
the model of slices above).
-/
def challengeAcceptable (c : Challenge) : Bool :=
  IsToken c.scheme &&
  !(c.token68.isEmpty && c.params.isEmpty) &&
  !(!c.token68.isEmpty && !c.params.isEmpty) &&
  (c.token68.isEmpty || IsToken68 c.token68) &&
  c.params.all (fun p => IsToken p.attr)

/--
`NewWWWAuthenticateError(error, challenges)`: rejects an empty challenge
list, then runs the per-challenge checks in order; on success wraps the
challenges and the message.
-/
def NewWWWAuthenticateError (error : List Nat) (challenges : List Challenge) :
    Option WWWAuthenticateError :=
  if challenges.isEmpty then none
  else if challenges.all challengeAcceptable then
    some { challenges := challenges, error := error }
  else none

/-! ## Serialization (src/http/error.go `HeaderValue`) -/

/--
One `param` iteration of `HeaderValue`: a comma when `j > 0 || !hasRealm`,
then the attribute, `=`, and whatever `WriteQuotedPair` appended to the
builder (its error is discarded with `_ =`, so on a control character in the
value the builder keeps the truncated, unterminated quoted string).
-/
def renderParamList (ps : List Param) (leadingComma : Bool) : List Nat :=
  match ps with
  | [] => []
  | p :: rest =>
    (if leadingComma then [44] else []) ++
    p.attr ++ [61] ++ (WriteQuotedPair p.value).1 ++
    renderParamList rest true

/--
One challenge iteration of `HeaderValue`: scheme, space, then the token68
verbatim if non-empty, else the synthesized `realm="<defaultRealm>"` when no
param's attribute case-insensitively equals `realm`, followed by the params.
-/
def renderChallenge (c : Challenge) (defaultRealm : List Nat) : List Nat :=
  c.scheme ++ [32] ++
  (if !c.token68.isEmpty then c.token68
   else
     let hasRealm := c.params.any attrFoldsToRealm
     (if !hasRealm then realmBytes ++ [61] ++ (WriteQuotedPair defaultRealm).1
      else []) ++
     renderParamList c.params (!hasRealm))

/-- The challenge loop of `HeaderValue`, with a comma before every
challenge except the first. -/
def renderChallengeList (cs : List Challenge) (defaultRealm : List Nat) : List Nat :=
  match cs with
  | [] => []
  | c :: rest =>
    renderChallenge c defaultRealm ++
    (rest.map (fun c2 => 44 :: renderChallenge c2 defaultRealm)).flatten

/--
`HeaderValue(defaultRealm)`: fails when the receiver was not built through
`NewWWWAuthenticateError` (nil challenges; construction guarantees a
nonempty list, so emptiness stands in for nil-ness) or when `defaultRealm`
itself fails quoting validation; otherwise renders every challenge.
-/
def HeaderValue (w : WWWAuthenticateError) (defaultRealm : List Nat) :
    Option (List Nat) :=
  if w.challenges.isEmpty then none
  else if (ValidateFormattableAsQuotedPair defaultRealm).isSome then none
  else some (renderChallengeList w.challenges defaultRealm)

/-! ## Bearer semantic validation

Two independently evolved editions of `ValidateBearerChallenge` exist in the
repository: src/unnamed/part_001 (edition A) and src/unnamed/part_002
(edition B).  They share the counting skeleton and differ in the scheme
comparison and in the per-value character checks. -/

/-- Structured stand-in for the `fmt.Errorf` results of
`ValidateBearerChallenge`, one constructor per return site, carrying the
challenge index `i` (and param index `j` where the Go message has one). -/
inductive BearerErr where
  | notConstructed
  | schemeMismatch (i : Nat)
  | scopeEmptyValue (i j : Nat)
  | scopeBadValue (i j : Nat)
  | errorBadValue (i j : Nat)
  | errorDescriptionBadValue (i j : Nat)
  | errorURIBadValue (i j : Nat)
  | realmCardinality (i : Nat)
  | scopeCardinality (i : Nat)
  | errorCardinality (i : Nat)
  | errorDescriptionCardinality (i : Nat)
  | errorURICardinality (i : Nat)
deriving DecidableEq, Repr

/-- `strings.Split(s, sep)` for a single-byte separator: split on every
occurrence, keeping empty segments (`Split("", sep)` is `[""]`). -/
def splitOnByte (c : Nat) : List Nat → List (List Nat)
  | [] => [[]]
  | b :: rest =>
    if b = c then [] :: splitOnByte c rest
    else
      match splitOnByte c rest with
      | g :: gs => (b :: g) :: gs
      | [] => [[b]]

/-- `strings.Contains(l, pat)`: `pat` occurs as a contiguous sublist of `l`. -/
def containsSub (l pat : List Nat) : Bool :=
  pat.isPrefixOf l ||
    match l with
    | [] => false
    | _ :: t => containsSub t pat

/-- The bytes of `"scope"`. -/
def scopeBytes : List Nat := [115, 99, 111, 112, 101]

/-- The bytes of `"error"`. -/
def errorBytes : List Nat := [101, 114, 114, 111, 114]

/-- The bytes of `"error_description"`. -/
def errorDescriptionBytes : List Nat :=
  [101, 114, 114, 111, 114, 95, 100, 101, 115, 99, 114, 105, 112, 116, 105, 111, 110]

/-- The bytes of `"error_uri"`. -/
def errorURIBytes : List Nat := [101, 114, 114, 111, 114, 95, 117, 114, 105]

/--
Edition A's scope-value loop (src/unnamed/part_001): each space-separated
segment must be nonempty, and is then tested with
`strings.Contains(scopeValue, "\x5C\x22\x09")` — i.e. for an occurrence of
the three-byte substring backslash, double-quote, tab (NOT `ContainsAny`;
the accompanying error message talks about individual characters, but the
code tests for the contiguous substring).
-/
def scopeValuesCheckA (i j : Nat) : List (List Nat) → Option BearerErr
  | [] => none
  | v :: rest =>
    if v.isEmpty then some (.scopeEmptyValue i j)
    else if containsSub v [92, 34, 9] then some (.scopeBadValue i j)
    else scopeValuesCheckA i j rest

/--
Edition A's param loop: the switch tries, in order, attribute lower-cases to
`realm` / equals `scope` / equals `error` / equals `error_description` /
equals `error_uri`; counters are incremented and character checks performed
(all via `strings.Contains` with the literal substrings `"\x5C\x22\x09"`
resp. `"\x5C\x22\x09\x20"` for error_uri); the first violation returns.
On success the five counters are returned.
-/
def bearerParamsA (i j rc sc ec edc euc : Nat) :
    List Param → Except BearerErr (Nat × Nat × Nat × Nat × Nat)
  | [] => .ok (rc, sc, ec, edc, euc)
  | p :: rest =>
    if attrFoldsToRealm p then
      bearerParamsA i (j + 1) (rc + 1) sc ec edc euc rest
    else if p.attr = scopeBytes then
      match scopeValuesCheckA i j (splitOnByte 32 p.value) with
      | some e => .error e
      | none => bearerParamsA i (j + 1) rc (sc + 1) ec edc euc rest
    else if p.attr = errorBytes then
      if containsSub p.value [92, 34, 9] then .error (.errorBadValue i j)
      else bearerParamsA i (j + 1) rc sc (ec + 1) edc euc rest
    else if p.attr = errorDescriptionBytes then
      if containsSub p.value [92, 34, 9] then .error (.errorDescriptionBadValue i j)
      else bearerParamsA i (j + 1) rc sc ec (edc + 1) euc rest
    else if p.attr = errorURIBytes then
      if containsSub p.value [92, 34, 9, 32] then .error (.errorURIBadValue i j)
      else bearerParamsA i (j + 1) rc sc ec edc (euc + 1) rest
    else
      bearerParamsA i (j + 1) rc sc ec edc euc rest

/-- The cardinality checks after the param loop (identical in both
editions): realm, scope, error, error_description, error_uri in order. -/
def bearerCardinality (i : Nat) (r : Nat × Nat × Nat × Nat × Nat) :
    Option BearerErr :=
  if r.1 > 1 then some (.realmCardinality i)
  else if r.2.1 > 1 then some (.scopeCardinality i)
  else if r.2.2.1 > 1 then some (.errorCardinality i)
  else if r.2.2.2.1 > 1 then some (.errorDescriptionCardinality i)
  else if r.2.2.2.2 > 1 then some (.errorURICardinality i)
  else none

/-- Edition A, one challenge: the scheme must be byte-equal to `"Bearer"`
(`challenge.Scheme != AuthenticationSchemeBearer`, case-SENSITIVE despite
the case-insensitive error message), then the param loop and the
cardinality checks. -/
def bearerChallengeA (i : Nat) (c : Challenge) : Option BearerErr :=
  if c.scheme ≠ bearerBytes then some (.schemeMismatch i)
  else
    match bearerParamsA i 0 0 0 0 0 0 c.params with
    | .error e => some e
    | .ok r => bearerCardinality i r

/-- Edition A, challenge loop with running index. -/
def bearerChallengesA (i : Nat) : List Challenge → Option BearerErr
  | [] => none
  | c :: rest =>
    match bearerChallengeA i c with
    | some e => some e
    | none => bearerChallengesA (i + 1) rest

/-- `ValidateBearerChallenge` of src/unnamed/part_001. -/
def ValidateBearerChallengeA (w : WWWAuthenticateError) : Option BearerErr :=
  if w.challenges.isEmpty then some .notConstructed
  else bearerChallengesA 0 w.challenges

/--
Edition B's scope-value loop (src/unnamed/part_002): each space-separated
segment must be nonempty and must satisfy
`!WriteQuotedPairWouldWriteBackslashes`, i.e. contain neither a double quote
nor a backslash (no check at all for control bytes).
-/
def scopeValuesCheckB (i j : Nat) : List (List Nat) → Option BearerErr
  | [] => none
  | v :: rest =>
    if v.isEmpty then some (.scopeEmptyValue i j)
    else if WriteQuotedPairWouldWriteBackslashes v then some (.scopeBadValue i j)
    else scopeValuesCheckB i j rest

/--
Edition B's param loop: like edition A but `error` / `error_description`
values are tested with `WriteQuotedPairWouldWriteBackslashes` and
`error_uri` with `strings.Contains(value, "\x20\x22\x5C")` (the three-byte
substring space, double-quote, backslash).
-/
def bearerParamsB (i j rc sc ec edc euc : Nat) :
    List Param → Except BearerErr (Nat × Nat × Nat × Nat × Nat)
  | [] => .ok (rc, sc, ec, edc, euc)
  | p :: rest =>
    if attrFoldsToRealm p then
      bearerParamsB i (j + 1) (rc + 1) sc ec edc euc rest
    else if p.attr = scopeBytes then
      match scopeValuesCheckB i j (splitOnByte 32 p.value) with
      | some e => .error e
      | none => bearerParamsB i (j + 1) rc (sc + 1) ec edc euc rest
    else if p.attr = errorBytes then
      if WriteQuotedPairWouldWriteBackslashes p.value then .error (.errorBadValue i j)
      else bearerParamsB i (j + 1) rc sc (ec + 1) edc euc rest
    else if p.attr = errorDescriptionBytes then
      if WriteQuotedPairWouldWriteBackslashes p.value then
        .error (.errorDescriptionBadValue i j)
      else bearerParamsB i (j + 1) rc sc ec (edc + 1) euc rest
    else if p.attr = errorURIBytes then
      if containsSub p.value [32, 34, 92] then .error (.errorURIBadValue i j)
      else bearerParamsB i (j + 1) rc sc ec edc (euc + 1) rest
    else
      bearerParamsB i (j + 1) rc sc ec edc euc rest

/-- Edition B, one challenge: the scheme comparison is case-insensitive
(`strings.ToLower(challenge.Scheme) != strings.ToLower("Bearer")`, modelled
as in `attrFoldsToRealm`), then the shared param loop / cardinality
structure. -/
def bearerChallengeB (i : Nat) (c : Challenge) : Option BearerErr :=
  if c.scheme.map asciiLowerByte ≠ bearerBytes.map asciiLowerByte then
    some (.schemeMismatch i)
  else
    match bearerParamsB i 0 0 0 0 0 0 c.params with
    | .error e => some e
    | .ok r => bearerCardinality i r

/-- Edition B, challenge loop with running index. -/
def bearerChallengesB (i : Nat) : List Challenge → Option BearerErr
  | [] => none
  | c :: rest =>
    match bearerChallengeB i c with
    | some e => some e
    | none => bearerChallengesB (i + 1) rest

/-- `ValidateBearerChallenge` of src/unnamed/part_002. -/
def ValidateBearerChallengeB (w : WWWAuthenticateError) : Option BearerErr :=
  if w.challenges.isEmpty then some .notConstructed
  else bearerChallengesB 0 w.challenges

/-! ## The challenge parser (src/http/range.go)

The Go `parser` struct holds an immutable `headerValue string`, a cursor
`pos int` and the current byte `b int` (-1 once the cursor reaches the end
of the input).  The immutable header value is passed to every function as an
ambient `hv` parameter; the mutable part is `PState`.

Loops are modelled with an explicit fuel argument.  Running out of fuel
yields the artificial result `PRes.spin`; a Go runtime panic (the parser
indexes the 256-entry `octetFlagArray` with `p.b`, which can be -1) yields
`PRes.crash`. -/

/-- The mutable parser state: current byte (with -1 as the end-of-input
sentinel) and cursor. -/
structure PState where
  b : Int
  pos : Nat
deriving DecidableEq, Repr

/-- Result of a parser step: success with a value and the new state,
a Go `error` return carrying the state at the point of the error,
a Go runtime panic, or fuel exhaustion (an artifact of the model). -/
inductive PRes (α : Type) where
  | ok (a : α) (s : PState)
  | err (s : PState)
  | crash
  | spin
deriving DecidableEq, Repr

/-- Sequencing that propagates `err`, `crash` and `spin`. -/
def PRes.bind {α β : Type} (r : PRes α) (f : α → PState → PRes β) : PRes β :=
  match r with
  | .ok a s => f a s
  | .err s => .err s
  | .crash => .crash
  | .spin => .spin

/-- `p.next()`: no-op at the end of the input; otherwise advance the cursor
and load the byte there, or the -1 sentinel when the cursor lands on the
length. -/
def pnext (hv : List Nat) (s : PState) : PState :=
  if s.pos = hv.length then s
  else
    let pos := s.pos + 1
    if pos = hv.length then { b := -1, pos := pos }
    else { b := (hv.getD pos 0 : Int), pos := pos }

/-- `p.isTokenOctet()`: `0 <= p.b && octetFlagArray[p.b]&octetFlagToken != 0`. -/
def isTokenOctet (s : PState) : Bool :=
  0 ≤ s.b && isTokenByte s.b.toNat

/-- `p.expectOctet(b)`: error (without moving) unless the current byte is
`c`, else consume it. -/
def expectOctet (hv : List Nat) (c : Int) (s : PState) : PRes Unit :=
  if s.b ≠ c then .err s else .ok () (pnext hv s)

/-- `p.expectTokenOctet()`: error (without moving) unless the current byte
is a token octet, else consume it. -/
def expectTokenOctet (hv : List Nat) (s : PState) : PRes Unit :=
  if isTokenOctet s then .ok () (pnext hv s) else .err s

/-- `p.ows()`: consume spaces and horizontal tabs. -/
def ows (hv : List Nat) : Nat → PState → PRes Unit
  | 0, _ => .spin
  | fuel + 1, s =>
    if s.b = 32 || s.b = 9 then ows hv fuel (pnext hv s) else .ok () s

/-- `for p.isTokenOctet() { p.next() }`. -/
def tokenRun (hv : List Nat) : Nat → PState → PRes Unit
  | 0, _ => .spin
  | fuel + 1, s =>
    if isTokenOctet s then tokenRun hv fuel (pnext hv s) else .ok () s

/-- `headerValue[i:j]` for the slices the parser takes (`i ≤ j ≤ len`). -/
def sliceHV (hv : List Nat) (i j : Nat) : List Nat :=
  (hv.drop i).take (j - i)

/--
The quoted-string loop `L` inside `authParam`: starting at the opening `"`,
repeatedly advance and dispatch on the new byte — closing `"` ends the loop
(the accumulated bytes are the decoded value); `\` advances again and
accepts any byte other than a control byte (tab excepted), 0x7F and the -1
sentinel; a bare 0x7F or control byte (or the sentinel) is an error;
anything else is appended verbatim.
-/
def quotedStringLoop (hv : List Nat) : Nat → List Nat → PState → PRes (List Nat)
  | 0, _, _ => .spin
  | fuel + 1, acc, s =>
    let s1 := pnext hv s
    if s1.b = 34 then .ok acc s1
    else if s1.b = 92 then
      let s2 := pnext hv s1
      if (decide (s2.b < 32) && s2.b ≠ 9) || s2.b = 127 then .err s2
      else quotedStringLoop hv fuel (acc ++ [s2.b.toNat]) s2
    else if s1.b = 127 then .err s1
    else if decide (s1.b < 32) && s1.b ≠ 9 then .err s1
    else quotedStringLoop hv fuel (acc ++ [s1.b.toNat]) s1

/--
Body of `authParam` after its leading `expectTokenOctet` has consumed the
first attribute byte: finish the attribute token, `OWS "=" OWS`, then either
a quoted-string value (followed by one `next` past the closing quote) or a
token value.  `posStart1` is the position where the attribute began.
-/
def authParamAfterFirst (hv : List Nat) (fuel : Nat) (posStart1 : Nat)
    (s1 : PState) : PRes Param :=
  (tokenRun hv fuel s1).bind fun _ s2 =>
  let attrib := sliceHV hv posStart1 s2.pos
  (ows hv fuel s2).bind fun _ s3 =>
  (expectOctet hv 61 s3).bind fun _ s4 =>
  (ows hv fuel s4).bind fun _ s5 =>
  if s5.b = 34 then
    (quotedStringLoop hv fuel [] s5).bind fun value s6 =>
      .ok { attr := attrib, value := value } (pnext hv s6)
  else
    let posStart2 := s5.pos
    (expectTokenOctet hv s5).bind fun _ s6 =>
    (tokenRun hv fuel s6).bind fun _ s7 =>
    .ok { attr := attrib, value := sliceHV hv posStart2 s7.pos } s7

/--
`p.authParam()`: if the leading `expectTokenOctet` fails the state is
untouched; any later error triggers the deferred `p.pos = posStart1`, which
restores the cursor but NOT the current-byte field `p.b` (the deferred
function assigns only `p.pos`).
-/
def authParam (hv : List Nat) (fuel : Nat) (s : PState) : PRes Param :=
  let posStart1 := s.pos
  match expectTokenOctet hv s with
  | .err s1 => .err s1
  | .ok _ s1 =>
    match authParamAfterFirst hv fuel posStart1 s1 with
    | .err s2 => .err { s2 with pos := posStart1 }
    | r => r
  | .crash => .crash
  | .spin => .spin

/-- `for p.b == '=' { p.next() }` inside the token68 scan. -/
def eqRun (hv : List Nat) : Nat → PState → PRes Unit
  | 0, _ => .spin
  | fuel + 1, s =>
    if s.b = 61 then eqRun hv fuel (pnext hv s) else .ok () s

/-- The token68 scan of `challenge`: `for { p.next(); if p.b < 0 break;
if octetFlagArray[p.b]&octetFlagToken68Head == 0 { for p.b == '=' p.next();
break } }`. -/
def token68Run (hv : List Nat) : Nat → PState → PRes Unit
  | 0, _ => .spin
  | fuel + 1, s =>
    let s1 := pnext hv s
    if s1.b < 0 then .ok () s1
    else if !isToken68HeadByte s1.b.toNat then eqRun hv fuel s1
    else token68Run hv fuel s1

/--
The second loop of `challenge` (the auth-param list): save the position, eat
OWS, and stop (restoring the position, not the byte) unless a comma follows;
consume the comma, set `hasTrailingComma`, save the post-comma position, eat
OWS and attempt `authParam` — on failure restore the position (`err2` is a
fresh local, so the failure is swallowed) and continue, on success append
the param and clear `hasTrailingComma`.
-/
def challengeParamLoop (hv : List Nat) (scheme : List Nat) :
    Nat → List Param → Bool → PState → PRes (Challenge × Bool)
  | 0, _, _, _ => .spin
  | fuel + 1, params, htc, s =>
    let posStart := s.pos
    (ows hv fuel s).bind fun _ s1 =>
    if s1.b ≠ 44 then
      .ok ({ scheme := scheme, params := params, token68 := [] }, htc)
        { s1 with pos := posStart }
    else
      let s2 := pnext hv s1
      let posStart2 := s2.pos
      (ows hv fuel s2).bind fun _ s3 =>
      match authParam hv fuel s3 with
      | .err s4 => challengeParamLoop hv scheme fuel params true { s4 with pos := posStart2 }
      | .ok param s4 => challengeParamLoop hv scheme fuel (params ++ [param]) false s4
      | .crash => .crash
      | .spin => .spin

/--
The loop `L` of `challenge`, entered when a space follows the scheme:
advance and dispatch — the -1 sentinel ends the challenge with no params and
no token68; a space continues; a comma leaves `L` with `hasTrailingComma`
set and proceeds to the param loop; anything else attempts `authParam`.  If
`authParam` fails, the Go code evaluates `octetFlagArray[p.b]` — a runtime
panic when `p.b` is the -1 sentinel (array index out of range); when the
(failure-point) byte is a token68 head byte the token68 fallback scans a
token68 starting from the restored cursor and ends the challenge; otherwise
the error is terminal for the challenge.
-/
def challengeLLoop (hv : List Nat) (scheme : List Nat) :
    Nat → PState → PRes (Challenge × Bool)
  | 0, _ => .spin
  | fuel + 1, s =>
    let s1 := pnext hv s
    if s1.b = -1 then
      .ok ({ scheme := scheme, params := [], token68 := [] }, false) s1
    else if s1.b = 32 then challengeLLoop hv scheme fuel s1
    else if s1.b = 44 then challengeParamLoop hv scheme fuel [] true s1
    else
      match authParam hv fuel s1 with
      | .ok param s2 => challengeParamLoop hv scheme fuel [param] false s2
      | .err s2 =>
        if s2.b < 0 then .crash
        else if isToken68HeadByte s2.b.toNat then
          (token68Run hv fuel s2).bind fun _ s3 =>
            .ok ({ scheme := scheme, params := [],
                   token68 := sliceHV hv s2.pos s3.pos }, false) s3
        else .err s2
      | .crash => .crash
      | .spin => .spin

/--
`p.challenge()`: parse the scheme token; if a space follows, run loop `L`
(and then the param loop); otherwise the challenge has no token68 and no
params.  On the error paths `hasTrailingComma` is still false (it is set
only after `L` saw a comma, after which no error return is reachable), so
an error result implies a false `hasTrailingComma` — which is what the
caller's multiple-assignment receives.
-/
def challenge (hv : List Nat) (fuel : Nat) (s : PState) : PRes (Challenge × Bool) :=
  let posStart := s.pos
  (expectTokenOctet hv s).bind fun _ s1 =>
  (tokenRun hv fuel s1).bind fun _ s2 =>
  let scheme := sliceHV hv posStart s2.pos
  if s2.b = 32 then challengeLLoop hv scheme fuel s2
  else .ok ({ scheme := scheme, params := [], token68 := [] }, false) s2

/-- `for p.b == ',' { p.next(); p.ows() }` — the leading-comma tolerance of
`wwwAuthenticate`. -/
def commaOwsRun (hv : List Nat) : Nat → PState → PRes Unit
  | 0, _ => .spin
  | fuel + 1, s =>
    if s.b = 44 then
      (ows hv fuel (pnext hv s)).bind fun _ s1 => commaOwsRun hv fuel s1
    else .ok () s

/--
The main loop of `wwwAuthenticate`.  `errp` models the function's NAMED
return value `err`: the loop assigns `challenge, hasTrailingComma, err =
p.challenge()` into it, so a failed speculative challenge attempt leaves
`err` non-nil, and if the loop then exits (no further comma) the function
returns that error even though previously parsed challenges were kept.  A
later successful attempt resets it to nil.  On a failed attempt the cursor
(only) is restored to the saved position and the loop continues with
`hasTrailingComma` false (the value returned by the failed `challenge`).
-/
def wwwAuthLoop (hv : List Nat) :
    Nat → List Challenge → Bool → Bool → PState → PRes (List Challenge)
  | 0, _, _, _, _ => .spin
  | fuel + 1, cs, htc, errp, s =>
    let attempt := fun (s0 : PState) =>
      let posStart2 := s0.pos
      (ows hv fuel s0).bind fun _ s1 =>
      match challenge hv fuel s1 with
      | .ok (c, htc2) s2 => wwwAuthLoop hv fuel (cs ++ [c]) htc2 false s2
      | .err s2 => wwwAuthLoop hv fuel cs false true { s2 with pos := posStart2 }
      | .crash => .crash
      | .spin => .spin
    if htc then attempt s
    else
      let posStart := s.pos
      (ows hv fuel s).bind fun _ s1 =>
      if s1.b ≠ 44 then
        if errp then .err { s1 with pos := posStart }
        else .ok cs { s1 with pos := posStart }
      else attempt (pnext hv s1)

/--
`p.wwwAuthenticate(r)`: skip leading commas and OWS, parse the first
challenge — a failure here restores the cursor to the entry position and is
returned — then append into the caller-supplied list and run the main loop.
-/
def wwwAuthenticate (hv : List Nat) (fuel : Nat) (r : List Challenge)
    (s : PState) : PRes (List Challenge) :=
  let posStart := s.pos
  (commaOwsRun hv fuel s).bind fun _ s1 =>
  match challenge hv fuel s1 with
  | .err s2 => .err { s2 with pos := posStart }
  | .ok (c, htc) s2 => wwwAuthLoop hv fuel (r ++ [c]) htc false s2
  | .crash => .crash
  | .spin => .spin

/-- `p.expectEOF()`: succeed exactly when the cursor sits at the length. -/
def expectEOF (hv : List Nat) (s : PState) : PRes Unit :=
  if s.pos = hv.length then .ok () s else .err s

/-- The state after `parser{headerValue: headerValue, pos: -1}` followed by
the initial `p.next()`: cursor 0, and the first byte (or the -1 sentinel for
empty input). -/
def initState (hv : List Nat) : PState :=
  if hv.length = 0 then { b := -1, pos := 0 }
  else { b := (hv.getD 0 0 : Int), pos := 0 }

/--
`ParseWwwAuthenticateHeaderValue(r, headerValue)`: build the parser, run
`wwwAuthenticate` (its `hasTrailingComma` result is discarded), and require
end of input.
-/
def ParseWwwAuthenticateHeaderValue (fuel : Nat) (r : List Challenge)
    (hv : List Nat) : PRes (List Challenge) :=
  match wwwAuthenticate hv fuel r (initState hv) with
  | .ok cs s =>
    (expectEOF hv s).bind fun _ s1 => .ok cs s1
  | .err s => .err s
  | .crash => .crash
  | .spin => .spin

/-- The challenges of a successful parse, if any. -/
def PRes.challengesOf : PRes (List Challenge) → Option (List Challenge)
  | .ok cs _ => some cs
  | _ => none

/-- Whether a result is a Go `error` return (not a panic, not fuel
exhaustion). -/
def PRes.isErr {α : Type} : PRes α → Bool
  | .err _ => true
  | _ => false

/-! ## Specification-side rendering (for the refinement claim about
`HeaderValue`) -/

/--
Modelled from the claim: the quoted-pair encoding of a value — the value
wrapped in double quotes, with every double quote and backslash preceded by
a backslash.  Total function; the claim presupposes values that pass quoting
validation.
-/
def quotedPairEncoding (v : List Nat) : List Nat :=
  34 :: ((v.map (fun b => if b = 34 || b = 92 then [92, b] else [b])).flatten ++ [34])

/-- Modelled from the claim: one parameter written as attribute, `=`, and
the quoted-pair encoding of the value. -/
def specParam (p : Param) : List Nat :=
  p.attr ++ [61] ++ quotedPairEncoding p.value

/-- Modelled from the claim: the parameters after the first, each preceded
by a comma. -/
def specParamsTail (ps : List Param) : List Nat :=
  match ps with
  | [] => []
  | p :: rest => [44] ++ specParam p ++ specParamsTail rest

/-- Modelled from the claim: the parameters in order, comma-separated. -/
def specParams (ps : List Param) : List Nat :=
  match ps with
  | [] => []
  | p :: rest => specParam p ++ specParamsTail rest

/--
Modelled from the claim: a challenge is written as its scheme, a space, then
either the token68 verbatim when it is non-empty, or its parameters in
order, with a `realm="<defaultRealm>"` parameter first exactly when no
supplied parameter's attribute is case-insensitively equal to `realm`.
-/
def specChallenge (c : Challenge) (defaultRealm : List Nat) : List Nat :=
  c.scheme ++ [32] ++
  (if !c.token68.isEmpty then c.token68
   else
     specParams
       ((if c.params.any attrFoldsToRealm then []
         else [{ attr := realmBytes, value := defaultRealm }]) ++ c.params))

/-- Modelled from the claim: the challenges after the first, each preceded
by a comma. -/
def specChallengesTail (cs : List Challenge) (defaultRealm : List Nat) : List Nat :=
  match cs with
  | [] => []
  | c :: rest => [44] ++ specChallenge c defaultRealm ++ specChallengesTail rest defaultRealm

/-- Modelled from the claim: the challenges in order, comma-separated. -/
def specHeaderValue (cs : List Challenge) (defaultRealm : List Nat) : List Nat :=
  match cs with
  | [] => []
  | c :: rest => specChallenge c defaultRealm ++ specChallengesTail rest defaultRealm

/-- The number of parameters of a challenge whose attribute is
case-insensitively equal to `realm`. -/
def realmParamCount (c : Challenge) : Nat :=
  (c.params.filter attrFoldsToRealm).length

/-! ## Concrete inputs used by the claims (ASCII given in the comments) -/

/-- `"Scheme abc123=="` (claim C3). -/
def c3input : List Nat := [83, 99, 104, 101, 109, 101, 32, 97, 98, 99, 49, 50, 51, 61, 61]

/-- `"Scheme a"` (claim C10). -/
def c10input : List Nat := [83, 99, 104, 101, 109, 101, 32, 97]

/-- A Bearer challenge whose realm value is the single control byte 0x00
(claim C1). -/
def c1Challenge : Challenge :=
  { scheme := bearerBytes, params := [{ attr := realmBytes, value := [0] }], token68 := [] }

/-- The wrapper `NewWWWAuthenticateError` actually returns for
`c1Challenge` with message `"m"`. -/
def c1W : WWWAuthenticateError := { challenges := [c1Challenge], error := [109] }

/-- `"Bearer realm=\x22"` — the truncated, unterminated header value that
`HeaderValue` emits for `c1W` (claim C1). -/
def c1Output : List Nat := [66, 101, 97, 114, 101, 114, 32, 114, 101, 97, 108, 109, 61, 34]

/-- `"a b"` (claim C2): `authParam` consumes the attribute `a` and the OWS,
then fails expecting `=` while looking at `b`. -/
def c2hv : List Nat := [97, 32, 98]

/-- The parser state at the start of the `authParam` attempt on `c2hv`. -/
def c2s0 : PState := initState c2hv

/-- A challenge with a token68 credential, as accepted by
`NewWWWAuthenticateError` (claim C4): scheme `"S"`, token68 `"abc"`. -/
def c4Challenge : Challenge := { scheme := [83], params := [], token68 := [97, 98, 99] }

/-- The wrapper built from `c4Challenge` with message `"m"`. -/
def c4W : WWWAuthenticateError := { challenges := [c4Challenge], error := [109] }

/-- `"S abc"` — the header value `HeaderValue` produces for `c4W`. -/
def c4Wire : List Nat := [83, 32, 97, 98, 99]

/-- `"Bearer realm=\x22r\x22,,scope="` (claim C5). -/
def c5input : List Nat :=
  [66, 101, 97, 114, 101, 114, 32, 114, 101, 97, 108, 109, 61, 34, 114, 34, 44, 44,
   115, 99, 111, 112, 101, 61]

/-- `"Bearer realm=\x22r\x22,,x=y"` — like `c5input` but the final segment
is a well-formed auth-param. -/
def c5inputB : List Nat :=
  [66, 101, 97, 114, 101, 114, 32, 114, 101, 97, 108, 109, 61, 34, 114, 34, 44, 44,
   120, 61, 121]

/-- The Bearer challenge with params `realm="r"` and `x=y` that the parse of
`c5inputB` produces. -/
def c5Expected : Challenge :=
  { scheme := bearerBytes,
    params := [{ attr := realmBytes, value := [114] }, { attr := [120], value := [121] }],
    token68 := [] }

/-- A Bearer challenge whose scope value is the single control byte 0x01
(claim C6). -/
def c6Challenge : Challenge :=
  { scheme := bearerBytes, params := [{ attr := scopeBytes, value := [1] }], token68 := [] }

/-- The wrapper built from `c6Challenge` with message `"m"`. -/
def c6W : WWWAuthenticateError := { challenges := [c6Challenge], error := [109] }

/-- A Bearer challenge whose scope value is a single double quote
(claim C6; edition A accepts it, edition B rejects it). -/
def c6ChallengeQ : Challenge :=
  { scheme := bearerBytes, params := [{ attr := scopeBytes, value := [34] }], token68 := [] }

/-- The wrapper built from `c6ChallengeQ` with message `"m"`. -/
def c6WQ : WWWAuthenticateError := { challenges := [c6ChallengeQ], error := [109] }

/-- `"Bearer realm=\x22a\x22,realm=\x22b\x22"` (claim C7's example input). -/
def c7input : List Nat :=
  [66, 101, 97, 114, 101, 114, 32, 114, 101, 97, 108, 109, 61, 34, 97, 34, 44,
   114, 101, 97, 108, 109, 61, 34, 98, 34]

/-- The challenge list the parse of `c7input` produces: one Bearer challenge
with two realm params. -/
def c7cs : List Challenge :=
  [{ scheme := bearerBytes,
     params := [{ attr := realmBytes, value := [97] }, { attr := realmBytes, value := [98] }],
     token68 := [] }]

/-- A valid wrapper exercising the amended serialization claim (C8 witness):
one Bearer challenge with the single param `a="b"`. -/
def c8wCs : List Challenge :=
  [{ scheme := bearerBytes, params := [{ attr := [97], value := [98] }], token68 := [] }]

/-- The wrapper built from `c8wCs` with message `"m"`. -/
def c8wW : WWWAuthenticateError := { challenges := c8wCs, error := [109] }

/-- `"he said \x22hi\x22\x5Cok"` (claim C9). -/
def c9value : List Nat :=
  [104, 101, 32, 115, 97, 105, 100, 32, 34, 104, 105, 34, 92, 111, 107]

/-- `"\x22he said \x5C\x22hi\x5C\x22\x5C\x5Cok\x22"` — the expected
quoted-pair encoding of `c9value`. -/
def c9encoded : List Nat :=
  [34, 104, 101, 32, 115, 97, 105, 100, 32, 92, 34, 104, 105, 92, 34, 92, 92, 111, 107, 34]

/-- `"S a="` followed by `c9encoded`: a header value whose single auth-param
carries the encoded value. -/
def c9input : List Nat :=
  [83, 32, 97, 61, 34, 104, 101, 32, 115, 97, 105, 100, 32, 92, 34, 104, 105, 92, 34,
   92, 92, 111, 107, 34]

theorem expectTokenOctet_err_eq (hv : List Nat) (s s1 : PState)
    (h : expectTokenOctet hv s = .err s1) : s1 = s := by
  unfold expectTokenOctet at h
  split at h
  · simp at h
  · cases h; rfl

theorem newWWWAuthenticateError_challenges (e : List Nat) (cs : List Challenge)
    (w : WWWAuthenticateError) (h : NewWWWAuthenticateError e cs = some w) :
    w.challenges = cs ∧ cs.isEmpty = false := by
  unfold NewWWWAuthenticateError at h
  split at h
  · simp at h
  · split at h
    · rename_i hne hall
      cases h
      exact ⟨rfl, by simpa using hne⟩
    · simp at h

theorem scopeValuesCheckA_shape (i j : Nat) (vs : List (List Nat)) (e : BearerErr)
    (h : scopeValuesCheckA i j vs = some e) :
    e = .scopeEmptyValue i j ∨ e = .scopeBadValue i j := by
  induction vs with
  | nil => simp [scopeValuesCheckA] at h
  | cons v rest ih =>
    unfold scopeValuesCheckA at h
    split at h
    · cases h; exact Or.inl rfl
    · split at h
      · cases h; exact Or.inr rfl
      · exact ih h

theorem scopeValuesCheckB_shape (i j : Nat) (vs : List (List Nat)) (e : BearerErr)
    (h : scopeValuesCheckB i j vs = some e) :
    e = .scopeEmptyValue i j ∨ e = .scopeBadValue i j := by
  induction vs with
  | nil => simp [scopeValuesCheckB] at h
  | cons v rest ih =>
    unfold scopeValuesCheckB at h
    split at h
    · cases h; exact Or.inl rfl
    · split at h
      · cases h; exact Or.inr rfl
      · exact ih h

theorem bearerParamsA_error_shape (ps : List Param) :
    ∀ i j rc sc ec edc euc e, bearerParamsA i j rc sc ec edc euc ps = .error e →
    ∀ k, e ≠ BearerErr.realmCardinality k := by
  induction ps with
  | nil =>
    intro i j rc sc ec edc euc e h k
    simp [bearerParamsA] at h
  | cons p rest ih =>
    intro i j rc sc ec edc euc e h k
    unfold bearerParamsA at h
    split at h
    · exact ih _ _ _ _ _ _ _ _ h k
    · split at h
      · split at h
        · rename_i e2 heq
          cases h
          rcases scopeValuesCheckA_shape _ _ _ _ heq with h2 | h2 <;> simp [h2]
        · exact ih _ _ _ _ _ _ _ _ h k
      · split at h
        · split at h
          · cases h; simp
          · exact ih _ _ _ _ _ _ _ _ h k
        · split at h
          · split at h
            · cases h; simp
            · exact ih _ _ _ _ _ _ _ _ h k
          · split at h
            · split at h
              · cases h; simp
              · exact ih _ _ _ _ _ _ _ _ h k
            · exact ih _ _ _ _ _ _ _ _ h k

theorem bearerParamsA_ok_realm (ps : List Param) :
    ∀ i j rc sc ec edc euc r, bearerParamsA i j rc sc ec edc euc ps = .ok r →
    r.1 = rc + (ps.filter attrFoldsToRealm).length := by
  induction ps with
  | nil =>
    intro i j rc sc ec edc euc r h
    unfold bearerParamsA at h
    cases h
    simp
  | cons p rest ih =>
    intro i j rc sc ec edc euc r h
    unfold bearerParamsA at h
    split at h
    · rename_i hrealm
      have hlen : (List.filter attrFoldsToRealm (p :: rest)).length =
          (List.filter attrFoldsToRealm rest).length + 1 := by
        simp [List.filter_cons, hrealm]
      have := ih _ _ _ _ _ _ _ _ h
      omega
    · rename_i hrealm
      have hlen : (List.filter attrFoldsToRealm (p :: rest)).length =
          (List.filter attrFoldsToRealm rest).length := by
        simp [List.filter_cons, hrealm]
      split at h
      · split at h
        · simp at h
        · have := ih _ _ _ _ _ _ _ _ h
          omega
      · split at h
        · split at h
          · simp at h
          · have := ih _ _ _ _ _ _ _ _ h
            omega
        · split at h
          · split at h
            · simp at h
            · have := ih _ _ _ _ _ _ _ _ h
              omega
          · split at h
            · split at h
              · simp at h
              · have := ih _ _ _ _ _ _ _ _ h
                omega
            · have := ih _ _ _ _ _ _ _ _ h
              omega

theorem bearerChallengeA_isSome_of_realms (i : Nat) (c : Challenge)
    (hs : c.scheme = bearerBytes) (h2 : 2 ≤ realmParamCount c) :
    (bearerChallengeA i c).isSome = true := by
  unfold bearerChallengeA
  rw [if_neg (by simp [hs])]
  cases hr : bearerParamsA i 0 0 0 0 0 0 c.params with
  | error e => simp
  | ok r =>
    have hc := bearerParamsA_ok_realm c.params i 0 0 0 0 0 0 r hr
    have h2b : 2 ≤ (List.filter attrFoldsToRealm c.params).length := by
      simpa [realmParamCount] using h2
    have hgt : r.1 > 1 := by omega
    simp [bearerCardinality, hgt]

theorem bearerChallengeA_ne_realmCard (i : Nat) (c : Challenge)
    (h1 : realmParamCount c ≤ 1) (k : Nat) :
    bearerChallengeA i c ≠ some (BearerErr.realmCardinality k) := by
  unfold bearerChallengeA
  split
  · simp
  · cases hr : bearerParamsA i 0 0 0 0 0 0 c.params with
    | error e =>
      have := bearerParamsA_error_shape c.params i 0 0 0 0 0 0 e hr k
      simpa using this
    | ok r =>
      have hc := bearerParamsA_ok_realm c.params i 0 0 0 0 0 0 r hr
      have h1b : (List.filter attrFoldsToRealm c.params).length ≤ 1 := by
        simpa [realmParamCount] using h1
      have hle : ¬r.1 > 1 := by omega
      dsimp only
      simp only [bearerCardinality, if_neg hle]
      split
      · simp
      · split
        · simp
        · split
          · simp
          · split <;> simp

theorem bearerChallengesA_isSome_of_realms (cs : List Challenge) :
    ∀ i, (∀ c ∈ cs, c.scheme = bearerBytes) → (∃ c ∈ cs, 2 ≤ realmParamCount c) →
    (bearerChallengesA i cs).isSome = true := by
  induction cs with
  | nil =>
    intro i _ hex
    simp at hex
  | cons c rest ih =>
    intro i hall hex
    unfold bearerChallengesA
    cases hc : bearerChallengeA i c with
    | some e => simp
    | none =>
      rcases hex with ⟨c2, hmem, hc2⟩
      rcases List.mem_cons.1 hmem with rfl | hmem2
      · have := bearerChallengeA_isSome_of_realms i c2 (hall c2 (List.mem_cons_self _ _)) hc2
        rw [hc] at this
        simp at this
      · exact ih (i + 1) (fun d hd => hall d (List.mem_cons_of_mem _ hd)) ⟨c2, hmem2, hc2⟩

theorem bearerChallengesA_ne_realmCard (cs : List Challenge) :
    ∀ i, (∀ c ∈ cs, realmParamCount c ≤ 1) →
    ∀ k, bearerChallengesA i cs ≠ some (BearerErr.realmCardinality k) := by
  induction cs with
  | nil => intro i _ k; simp [bearerChallengesA]
  | cons c rest ih =>
    intro i hall k
    unfold bearerChallengesA
    cases hc : bearerChallengeA i c with
    | some e =>
      have := bearerChallengeA_ne_realmCard i c (hall c (List.mem_cons_self _ _)) k
      rw [hc] at this
      simpa using this
    | none => exact ih (i + 1) (fun d hd => hall d (List.mem_cons_of_mem _ hd)) k

theorem bearerParamsB_error_shape (ps : List Param) :
    ∀ i j rc sc ec edc euc e, bearerParamsB i j rc sc ec edc euc ps = .error e →
    ∀ k, e ≠ BearerErr.realmCardinality k := by
  induction ps with
  | nil =>
    intro i j rc sc ec edc euc e h k
    simp [bearerParamsB] at h
  | cons p rest ih =>
    intro i j rc sc ec edc euc e h k
    unfold bearerParamsB at h
    split at h
    · exact ih _ _ _ _ _ _ _ _ h k
    · split at h
      · split at h
        · rename_i e2 heq
          cases h
          rcases scopeValuesCheckB_shape _ _ _ _ heq with h2 | h2 <;> simp [h2]
        · exact ih _ _ _ _ _ _ _ _ h k
      · split at h
        · split at h
          · cases h; simp
          · exact ih _ _ _ _ _ _ _ _ h k
        · split at h
          · split at h
            · cases h; simp
            · exact ih _ _ _ _ _ _ _ _ h k
          · split at h
            · split at h
              · cases h; simp
              · exact ih _ _ _ _ _ _ _ _ h k
            · exact ih _ _ _ _ _ _ _ _ h k

theorem bearerParamsB_ok_realm (ps : List Param) :
    ∀ i j rc sc ec edc euc r, bearerParamsB i j rc sc ec edc euc ps = .ok r →
    r.1 = rc + (ps.filter attrFoldsToRealm).length := by
  induction ps with
  | nil =>
    intro i j rc sc ec edc euc r h
    unfold bearerParamsB at h
    cases h
    simp
  | cons p rest ih =>
    intro i j rc sc ec edc euc r h
    unfold bearerParamsB at h
    split at h
    · rename_i hrealm
      have hlen : (List.filter attrFoldsToRealm (p :: rest)).length =
          (List.filter attrFoldsToRealm rest).length + 1 := by
        simp [List.filter_cons, hrealm]
      have := ih _ _ _ _ _ _ _ _ h
      omega
    · rename_i hrealm
      have hlen : (List.filter attrFoldsToRealm (p :: rest)).length =
          (List.filter attrFoldsToRealm rest).length := by
        simp [List.filter_cons, hrealm]
      split at h
      · split at h
        · simp at h
        · have := ih _ _ _ _ _ _ _ _ h
          omega
      · split at h
        · split at h
          · simp at h
          · have := ih _ _ _ _ _ _ _ _ h
            omega
        · split at h
          · split at h
            · simp at h
            · have := ih _ _ _ _ _ _ _ _ h
              omega
          · split at h
            · split at h
              · simp at h
              · have := ih _ _ _ _ _ _ _ _ h
                omega
            · have := ih _ _ _ _ _ _ _ _ h
              omega

theorem bearerChallengeB_isSome_of_realms (i : Nat) (c : Challenge)
    (hs : c.scheme = bearerBytes) (h2 : 2 ≤ realmParamCount c) :
    (bearerChallengeB i c).isSome = true := by
  unfold bearerChallengeB
  rw [if_neg (by simp [hs])]
  cases hr : bearerParamsB i 0 0 0 0 0 0 c.params with
  | error e => simp
  | ok r =>
    have hc := bearerParamsB_ok_realm c.params i 0 0 0 0 0 0 r hr
    have h2b : 2 ≤ (List.filter attrFoldsToRealm c.params).length := by
      simpa [realmParamCount] using h2
    have hgt : r.1 > 1 := by omega
    simp [bearerCardinality, hgt]

theorem bearerChallengeB_ne_realmCard (i : Nat) (c : Challenge)
    (h1 : realmParamCount c ≤ 1) (k : Nat) :
    bearerChallengeB i c ≠ some (BearerErr.realmCardinality k) := by
  unfold bearerChallengeB
  split
  · simp
  · cases hr : bearerParamsB i 0 0 0 0 0 0 c.params with
    | error e =>
      have := bearerParamsB_error_shape c.params i 0 0 0 0 0 0 e hr k
      simpa using this
    | ok r =>
      have hc := bearerParamsB_ok_realm c.params i 0 0 0 0 0 0 r hr
      have h1b : (List.filter attrFoldsToRealm c.params).length ≤ 1 := by
        simpa [realmParamCount] using h1
      have hle : ¬r.1 > 1 := by omega
      dsimp only
      simp only [bearerCardinality, if_neg hle]
      split
      · simp
      · split
        · simp
        · split
          · simp
          · split <;> simp

theorem bearerChallengesB_isSome_of_realms (cs : List Challenge) :
    ∀ i, (∀ c ∈ cs, c.scheme = bearerBytes) → (∃ c ∈ cs, 2 ≤ realmParamCount c) →
    (bearerChallengesB i cs).isSome = true := by
  induction cs with
  | nil =>
    intro i _ hex
    simp at hex
  | cons c rest ih =>
    intro i hall hex
    unfold bearerChallengesB
    cases hc : bearerChallengeB i c with
    | some e => simp
    | none =>
      rcases hex with ⟨c2, hmem, hc2⟩
      rcases List.mem_cons.1 hmem with rfl | hmem2
      · have := bearerChallengeB_isSome_of_realms i c2 (hall c2 (List.mem_cons_self _ _)) hc2
        rw [hc] at this
        simp at this
      · exact ih (i + 1) (fun d hd => hall d (List.mem_cons_of_mem _ hd)) ⟨c2, hmem2, hc2⟩

theorem bearerChallengesB_ne_realmCard (cs : List Challenge) :
    ∀ i, (∀ c ∈ cs, realmParamCount c ≤ 1) →
    ∀ k, bearerChallengesB i cs ≠ some (BearerErr.realmCardinality k) := by
  induction cs with
  | nil => intro i _ k; simp [bearerChallengesB]
  | cons c rest ih =>
    intro i hall k
    unfold bearerChallengesB
    cases hc : bearerChallengeB i c with
    | some e =>
      have := bearerChallengeB_ne_realmCard i c (hall c (List.mem_cons_self _ _)) k
      rw [hc] at this
      simpa using this
    | none => exact ih (i + 1) (fun d hd => hall d (List.mem_cons_of_mem _ hd)) k

/--
C7: for every validly constructed `WWWAuthenticateError` whose challenges all
use the Bearer scheme, both editions of `ValidateBearerChallenge` return an
error (a structured value carrying the challenge index) whenever some
challenge has two or more parameters whose attributes are case-insensitively
equal to `realm`, and the realm-cardinality error never fires on challenge
lists in which every challenge has at most one such parameter.
-/
theorem C7_realm_cardinality (e : List Nat) (cs : List Challenge)
    (w : WWWAuthenticateError)
    (hw : NewWWWAuthenticateError e cs = some w)
    (hb : ∀ c ∈ cs, c.scheme = bearerBytes) :
    ((∃ c ∈ cs, 2 ≤ realmParamCount c) →
      (ValidateBearerChallengeA w).isSome = true ∧
      (ValidateBearerChallengeB w).isSome = true) ∧
    ((∀ c ∈ cs, realmParamCount c ≤ 1) →
      ∀ k, ValidateBearerChallengeA w ≠ some (BearerErr.realmCardinality k) ∧
           ValidateBearerChallengeB w ≠ some (BearerErr.realmCardinality k)) := by
  obtain ⟨hch, hne⟩ := newWWWAuthenticateError_challenges e cs w hw
  constructor
  · intro hex
    constructor
    · unfold ValidateBearerChallengeA
      rw [hch, if_neg (by simp [hne])]
      exact bearerChallengesA_isSome_of_realms cs 0 hb hex
    · unfold ValidateBearerChallengeB
      rw [hch, if_neg (by simp [hne])]
      exact bearerChallengesB_isSome_of_realms cs 0 hb hex
  · intro hall k
    constructor
    · unfold ValidateBearerChallengeA
      rw [hch, if_neg (by simp [hne])]
      exact bearerChallengesA_ne_realmCard cs 0 hall k
    · unfold ValidateBearerChallengeB
      rw [hch, if_neg (by simp [hne])]
      exact bearerChallengesB_ne_realmCard cs 0 hall k

/--
C7 witness: the parse of `Bearer realm="a",realm="b"` yields one challenge
with two realm params, and both editions of `ValidateBearerChallenge` reject
the wrapper carrying it (by `C7_realm_cardinality` at this concrete input).
-/
theorem C7_witness :
    (ParseWwwAuthenticateHeaderValue 300 [] c7input).challengesOf = some c7cs ∧
    (ValidateBearerChallengeA { challenges := c7cs, error := [] }).isSome = true ∧
    (ValidateBearerChallengeB { challenges := c7cs, error := [] }).isSome = true := by
  refine ⟨by decide, ?_⟩
  exact (C7_realm_cardinality [] c7cs { challenges := c7cs, error := [] }
    (by decide) (by decide)).1 (by decide)

theorem quotedPairBody_of_valid (v : List Nat) (h : (quotedPairBody v).2 = none) :
    quotedPairBody v =
      ((v.map (fun b => if b = 34 || b = 92 then [92, b] else [b])).flatten, none) := by
  induction v with
  | nil => rfl
  | cons b rest ih =>
    unfold quotedPairBody at h ⊢
    split at h
    · simp at h
    · rename_i hctl
      rw [if_neg hctl]
      split at h
      · rename_i hesc
        rw [if_pos hesc]
        dsimp only at h ⊢
        rw [ih h]
        simp only [List.map_cons, List.flatten_cons, hesc]
        simp
      · rename_i hesc
        rw [if_neg hesc]
        dsimp only at h ⊢
        rw [ih h]
        simp only [List.map_cons, List.flatten_cons]
        rw [if_neg hesc]
        simp

theorem writeQuotedPair_of_valid (v : List Nat)
    (h : ValidateFormattableAsQuotedPair v = none) :
    WriteQuotedPair v = (quotedPairEncoding v, none) := by
  unfold ValidateFormattableAsQuotedPair WriteQuotedPair at *
  have hb := quotedPairBody_of_valid v (by
    revert h
    cases hq : (quotedPairBody v).2 <;> simp [hq])
  rw [hb]
  simp [quotedPairEncoding]

theorem renderParamList_spec (ps : List Param)
    (hval : ∀ p ∈ ps, ValidateFormattableAsQuotedPair p.value = none) :
    ∀ lead, renderParamList ps lead =
      if lead then specParamsTail ps else specParams ps := by
  induction ps with
  | nil => intro lead; cases lead <;> rfl
  | cons p rest ih =>
    intro lead
    have hp := writeQuotedPair_of_valid p.value (hval p (List.mem_cons_self _ _))
    have hrest := ih (fun q hq => hval q (List.mem_cons_of_mem _ hq)) true
    unfold renderParamList
    rw [hrest, hp]
    cases lead <;> simp [specParams, specParamsTail, specParam]

theorem renderChallenge_spec (c : Challenge) (dr : List Nat)
    (hval : ∀ p ∈ c.params, ValidateFormattableAsQuotedPair p.value = none)
    (hdr : ValidateFormattableAsQuotedPair dr = none) :
    renderChallenge c dr = specChallenge c dr := by
  unfold renderChallenge specChallenge
  cases ht : c.token68.isEmpty with
  | false => simp
  | true =>
    simp only [ht, Bool.not_true]
    cases hrm : c.params.any attrFoldsToRealm with
    | true =>
      simp only [hrm, Bool.not_true, if_neg (by simp : ¬False), List.nil_append]
      rw [renderParamList_spec c.params hval false]
      simp
    | false =>
      simp only [hrm, Bool.not_false]
      rw [renderParamList_spec c.params hval true,
          writeQuotedPair_of_valid dr hdr]
      simp [specParams, specParam]

theorem renderChallengeTail_spec (cs : List Challenge) (dr : List Nat)
    (hval : ∀ c ∈ cs, ∀ p ∈ c.params, ValidateFormattableAsQuotedPair p.value = none)
    (hdr : ValidateFormattableAsQuotedPair dr = none) :
    (cs.map (fun c2 => 44 :: renderChallenge c2 dr)).flatten = specChallengesTail cs dr := by
  induction cs with
  | nil => rfl
  | cons c rest ih =>
    unfold specChallengesTail
    simp only [List.map_cons, List.flatten_cons]
    rw [renderChallenge_spec c dr (hval c (List.mem_cons_self _ _)) hdr]
    rw [ih (fun d hd p hp => hval d (List.mem_cons_of_mem _ hd) p hp)]
    simp

theorem renderChallengeList_spec (cs : List Challenge) (dr : List Nat)
    (hval : ∀ c ∈ cs, ∀ p ∈ c.params, ValidateFormattableAsQuotedPair p.value = none)
    (hdr : ValidateFormattableAsQuotedPair dr = none) :
    renderChallengeList cs dr = specHeaderValue cs dr := by
  cases cs with
  | nil => rfl
  | cons c rest =>
    unfold renderChallengeList specHeaderValue
    dsimp only
    rw [renderChallenge_spec c dr (hval c (List.mem_cons_self _ _)) hdr]
    rw [renderChallengeTail_spec rest dr
      (fun d hd p hp => hval d (List.mem_cons_of_mem _ hd) p hp) hdr]

/--
C8 (amended): for every validly constructed `WWWAuthenticateError` whose
parameter values additionally all pass quoting validation — the construction
was supposed to guarantee this but does not, see `C8_counterexample` — and
every `defaultRealm` accepted by quoting validation, `HeaderValue` writes
each challenge in order as its scheme, a space, then either the token68
verbatim when non-empty or its parameters in order as attribute, `=`, and
the quoted-pair encoding of the value, with a synthesized
`realm="<defaultRealm>"` parameter first exactly when no supplied parameter
attribute folds to `realm`, and challenges comma-separated.
-/
theorem C8_headerValue_spec (e dr : List Nat) (cs : List Challenge)
    (w : WWWAuthenticateError)
    (hw : NewWWWAuthenticateError e cs = some w)
    (hval : ∀ c ∈ cs, ∀ p ∈ c.params, ValidateFormattableAsQuotedPair p.value = none)
    (hdr : ValidateFormattableAsQuotedPair dr = none) :
    HeaderValue w dr = some (specHeaderValue cs dr) := by
  obtain ⟨hch, hne⟩ := newWWWAuthenticateError_challenges e cs w hw
  unfold HeaderValue
  rw [hch, if_neg (by simp [hne]), if_neg (by simp [hdr])]
  rw [renderChallengeList_spec cs dr hval hdr]

/--
C8 witness: `C8_headerValue_spec` applied to a concrete wrapper (one Bearer
challenge with the single param `a="b"`) and defaultRealm `"r"`.
-/
theorem C8_witness :
    HeaderValue c8wW [114] = some (specHeaderValue c8wCs [114]) :=
  C8_headerValue_spec [109] [114] c8wCs c8wW (by decide) (by decide) (by decide)

/--
C8 counterexample: the claim quantifies over every validly constructed
`WWWAuthenticateError`, but construction admits the unencodable parameter
value 0x00 (see C1); on that wrapper `HeaderValue` succeeds with the
truncated output `Bearer realm="` — which is not the claimed form (the
quoted-pair encoding of the value never appears and no closing quote is
written).
-/
theorem C8_counterexample :
    NewWWWAuthenticateError [109] [c1Challenge] = some c1W ∧
    ValidateFormattableAsQuotedPair [] = none ∧
    HeaderValue c1W [] = some c1Output ∧
    ¬HeaderValue c1W [] = some (specHeaderValue [c1Challenge] []) := by
  refine ⟨by decide, by decide, by decide, ?_⟩
  decide

/--
C1: the claim states that whenever `NewWWWAuthenticateError` succeeds, every
parameter value of every challenge can be quoted-pair encoded, so that
`HeaderValue` cannot emit a malformed header value.  The code violates this:
construction accepts a challenge whose realm value is the control byte 0x00
(the quoting validation result is discarded at src/http/error.go line 43),
and `HeaderValue` then emits the unterminated value `Bearer realm="`.
-/
theorem C1_construction_accepts_unencodable_value :
    NewWWWAuthenticateError [109] [c1Challenge] = some c1W ∧
    ValidateFormattableAsQuotedPair [0] = some 0 ∧
    HeaderValue c1W [] = some c1Output := by decide

/--
C2 counterexample: on the input `a b`, `authParam` consumes the attribute
`a` and the following space, then fails expecting `=` while looking at `b`;
the returned state has the cursor restored to 0 but the current-byte field
still holds `b` (0x62), not the `a` (0x61) it held at the start of the
attempt — so the parser state at the failure is NOT equal to the state at
the start of the attempt.
-/
theorem C2_counterexample :
    authParam c2hv 50 c2s0 = PRes.err { b := 98, pos := 0 } ∧
    c2s0.b = 97 ∧ ¬({ b := 98, pos := 0 } : PState) = c2s0 := by decide

/--
C2 (amended): when a speculative `authParam` attempt fails, only the integer
cursor is restored to its value at the start of the attempt (the deferred
function assigns `p.pos` alone); the byte-at-the-cursor field is left at the
failure point — it is in fact consulted there by the token68 fallback.  For
a failed `challenge` attempt the caller `wwwAuthenticate` likewise restores
only the cursor.
-/
theorem C2_authParam_restores_cursor_only (hv : List Nat) (fuel : Nat)
    (s s1 : PState) (h : authParam hv fuel s = PRes.err s1) : s1.pos = s.pos := by
  unfold authParam at h
  split at h
  · rename_i s2 heq
    cases h
    exact congrArg PState.pos (expectTokenOctet_err_eq hv s _ heq)
  · rename_i a s2 heq
    dsimp only at h
    split at h
    · cases h; rfl
    · rename_i r hne
      exact absurd h (hne s1)
  · simp at h
  · simp at h

/--
C2 witness: `C2_authParam_restores_cursor_only` applied at the concrete
failed attempt of `C2_counterexample`.
-/
theorem C2_witness :
    authParam c2hv 50 c2s0 = PRes.err { b := 98, pos := 0 } ∧
    ({ b := 98, pos := 0 } : PState).pos = c2s0.pos := by
  refine ⟨by decide, ?_⟩
  exact C2_authParam_restores_cursor_only c2hv 50 c2s0 { b := 98, pos := 0 } (by decide)

/--
C3: the claim states `ParseWwwAuthenticateHeaderValue(nil, "Scheme abc123==")`
succeeds with a single token68 challenge.  The code instead returns an
error: `authParam` consumes `abc123` and the first `=`, fails on the second
`=`, and the token68 fallback tests the failure-point byte `=` (not a
token68 character) rather than the byte at the restored cursor, so the
challenge — and the whole parse — fails.
-/
theorem C3_token68_input_rejected :
    ParseWwwAuthenticateHeaderValue 200 [] c3input = PRes.err { b := 61, pos := 0 } ∧
    (ParseWwwAuthenticateHeaderValue 1000 [] c3input).challengesOf = none := by decide

/--
C4: the claim states that parsing `HeaderValue`'s output reproduces every
validly constructed challenge sequence.  For the valid wrapper with scheme
`S` and token68 `abc`, `HeaderValue` produces `S abc`, and parsing that
panics: `authParam` fails at end of input with the -1 sentinel in `p.b`, and
`challenge` then evaluates `octetFlagArray[p.b]` — an index-out-of-range
runtime panic.
-/
theorem C4_roundtrip_crashes_on_token68 :
    NewWWWAuthenticateError [109] [c4Challenge] = some c4W ∧
    HeaderValue c4W [] = some c4Wire ∧
    ParseWwwAuthenticateHeaderValue 200 [] c4Wire = PRes.crash := by decide

/--
C5 counterexample: on `Bearer realm="r",,scope=` the claim expects the
Bearer challenge to be returned; the code returns a terminal error instead
(the trailing `scope=` segment is left unconsumed, the final speculative
challenge attempt fails into `wwwAuthenticate`'s named return `err`, and the
parse surfaces that error).
-/
theorem C5_counterexample :
    ParseWwwAuthenticateHeaderValue 300 [] c5input = PRes.err { b := -1, pos := 18 } := by decide

/--
C5 (amended): a comma-introduced segment that fails to parse as an
auth-param is skipped by cursor restore only when a later auth-param parses
and the input ends cleanly — `Bearer realm="r",,x=y` succeeds with params
`realm="r"` and `x=y`, the empty segment silently dropped; but a malformed
trailing segment as in `Bearer realm="r",,scope=` leaves unconsumed input
and produces a terminal parse error rather than the prior valid challenge.
-/
theorem C5_segment_recovery :
    (ParseWwwAuthenticateHeaderValue 300 [] c5input).isErr = true ∧
    (ParseWwwAuthenticateHeaderValue 300 [] c5inputB).challengesOf = some [c5Expected] := by decide

/--
C6: the claim states that a Bearer challenge whose `scope` value contains a
double quote, a backslash, or a non-visible ASCII character is rejected by
`ValidateBearerChallenge`.  Both editions accept a scope value consisting of
the single control byte 0x01 (edition A tests for the contiguous substring
`\"<TAB>` instead of the individual characters; edition B only looks for
quotes and backslashes), and edition A even accepts a scope value that is a
single double quote — while their own error messages promise these are
rejected.
-/
theorem C6_scope_character_checks_ineffective :
    NewWWWAuthenticateError [109] [c6Challenge] = some c6W ∧
    NewWWWAuthenticateError [109] [c6ChallengeQ] = some c6WQ ∧
    ValidateBearerChallengeA c6W = none ∧
    ValidateBearerChallengeB c6W = none ∧
    ValidateBearerChallengeA c6WQ = none := by decide

/--
C9: encoding `he said "hi"\ok` yields `"he said \"hi\"\\ok"` with no
error, and the parser's inline quoted-string decoding of that encoded form
(as the value of the auth-param `a` of scheme `S`) reproduces the original
value byte-for-byte.
-/
theorem C9_quoted_pair_roundtrip :
    WriteQuotedPair c9value = (c9encoded, none) ∧
    (ParseWwwAuthenticateHeaderValue 300 [] c9input).challengesOf =
      some [{ scheme := [83], params := [{ attr := [97], value := c9value }],
              token68 := [] }] := by decide

/--
C10: the claim states `ParseWwwAuthenticateHeaderValue` terminates and
returns a result on every input.  On `Scheme a` the Go code panics instead:
after the scheme and space, `authParam` reaches end of input (current byte
-1) while expecting `=`, and the recovery branch of `challenge` indexes the
256-entry `octetFlagArray` with -1.  The result is independent of the fuel
supplied to the model (shown at two fuels).
-/
theorem C10_parser_panics :
    ParseWwwAuthenticateHeaderValue 200 [] c10input = PRes.crash ∧
    ParseWwwAuthenticateHeaderValue 1000 [] c10input = PRes.crash := by decide
